import Mathlib

/-!
Verification of the genai-vectors vector-database service.

Shallow embedding of the parts of the code relevant to the frozen claims:

* `Indexer`  — the parquet ID map and builder pipeline
  (`src/app/index/indexer.py`).
* `FilterT`  — the AWS-filter → SQL WHERE translation and the Python
  postfilter predicate (`src/app/lance/filter_translate.py`,
  `src/app/lance/index_ops.py:_apply_python_filter`).
* `LanceOps` — the Lance table write / read / delete operations
  (`src/app/lance/schema.py`, `src/app/lance/index_ops.py`) and the
  FastAPI handlers built on them (`src/app/api.py`).
* `Backends` — the ANN backends (`src/app/index/hnsw_backend.py`,
  `src/app/index/faiss_backends.py`).

Python integers are modelled as `Int`/`Nat` (no value in the claims
approaches 2^63, so wrap-around is not modelled); vector components are
modelled as exact numbers (`ℚ` where only carried as payload, `ℝ` where
geometry matters).
-/

namespace Indexer

/-- One row of the ID map parquet table
(`src/app/index/indexer.py:_append_to_idmap` builds the columns
`id:int64, key:string, vec:list<float32>, meta:string, alive:bool`).
Vector components are carried as exact rationals; the indexer never
computes with them. -/
structure IdRow where
  id    : Nat
  key   : String
  vec   : List ℚ
  meta  : String
  alive : Bool
  deriving Repr, DecidableEq

/-- The ID map is the ordered list of parquet rows. `none` models an
absent `idmap.parquet` object (`_load_idmap` returning `None`). -/
abbrev IdMap := List IdRow

/-- One staged slice decoded by `_load_slice`: aligned columns
`key`, `vec`, `meta`. We carry the rows zipped. -/
structure SliceRow where
  key : String
  vec : List ℚ
  meta : String
  deriving Repr, DecidableEq

/-- Mirrors `_append_to_idmap(idmap, new_keys, new_vecs, new_meta)`:
`start_id = 0 if idmap is None else idmap.num_rows`, new ids are
`start_id .. start_id+len-1`, new rows get `alive=True`, and the new
table is the old one concatenated with the new rows. -/
def appendToIdmap (idmap : Option IdMap) (newRows : List SliceRow) : IdMap :=
  let old := idmap.getD []
  let startId := old.length
  old ++ (newRows.enum.map fun (i, r) =>
    { id := startId + i, key := r.key, vec := r.vec, meta := r.meta, alive := true })

/-- Index of the last occurrence of `k`, mirroring the Python dict
comprehension `{k: i for i, k in enumerate(keys)}` in which a later
index overwrites an earlier one for a duplicated key. -/
def lastIndexOf (keys : List String) (k : String) : Option Nat :=
  (keys.enum.filterMap fun (i, key) => if key = k then some i else none).getLast?

/-- Mirrors `delete_by_keys` (`src/app/index/indexer.py:216`): for each requested
key present in the table, flip `alive` to `False` at its (last-wins)
row index; rows are never removed and `id`/`key`/`vec`/`meta` columns
are untouched.  Returns the rewritten table and `len(to_kill)`. -/
def deleteByKeys (tbl : Option IdMap) (keys : List String) : Option IdMap × Nat :=
  match tbl with
  | none => (none, 0)
  | some t =>
      let rowKeys := t.map (·.key)
      let toKill := keys.filterMap (lastIndexOf rowKeys)
      if toKill = [] then (some t, 0)
      else
        (some (t.mapIdx fun i r =>
          if i ∈ toKill then { r with alive := false } else r), toKill.length)

/-- The manifest JSON written by `_update_manifest`
(`src/app/index/indexer.py:85`): the fields the builder overwrites. -/
structure Manifest where
  index : String
  algo : String
  dimension : Nat
  metric : String
  vectors : Nat
  deriving Repr, DecidableEq

/-- Mirrors `process_new_slices` (`src/app/index/indexer.py:97`), state part:
  1. if no staged slices, return without building (`none` here);
  2. append all slice rows (in staged order) to the loaded idmap and
     persist it;
  3. choose hnsw vs ivfpq: `use_hnsw = (algorithm == "hnsw_flat") or
     (algorithm == "hybrid" and total < hnsw_threshold)` where
     `total = X.shape[0]` is the number of idmap rows;
  4. write the manifest with `vectors = total`.
Returns the new idmap, the manifest written, and the returned
`add_count`. -/
def processNewSlices (staged : List (List SliceRow)) (idmap : Option IdMap)
    (indexName : String) (dim : Nat) (metric : String) (algorithm : String)
    (hnswThreshold : Nat) : Option (IdMap × Manifest × Nat) :=
  if staged = [] then none
  else
    let allRows := staged.flatten
    let addCount := allRows.length
    let idmap' := appendToIdmap idmap allRows
    let total := idmap'.length
    let useHnsw := algorithm = "hnsw_flat" ∨ (algorithm = "hybrid" ∧ total < hnswThreshold)
    let algo := if useHnsw then "hnsw_flat" else "ivfpq"
    some (idmap', { index := indexName, algo := algo, dimension := dim,
                    metric := metric, vectors := total }, addCount)

/-- The two idmap-mutating operations of the indexer: a build over a set
of staged slices (`process_new_slices`) and a tombstone request
(`delete_by_keys`). -/
inductive Op where
  | build (staged : List (List SliceRow)) : Op
  | del (keys : List String) : Op
  deriving Repr

/-- Apply one operation to the persisted idmap state. A build with no
staged slices leaves the idmap untouched (the function returns before
writing). -/
def applyOp (tbl : Option IdMap) : Op → Option IdMap
  | .build staged =>
      match processNewSlices staged tbl "i" 0 "cosine" "hybrid" 0 with
      | none => tbl
      | some (t, _, _) => some t
  | .del keys => (deleteByKeys tbl keys).1

/-- The idmap state after a sequence of operations starting from an
absent idmap. -/
def applyOps (ops : List Op) : Option IdMap :=
  ops.foldl applyOp none

/-- Projection of a row to the columns `delete_by_keys` never touches. -/
def frozenCols (r : IdRow) : Nat × String × List ℚ × String :=
  (r.id, r.key, r.vec, r.meta)

/-- Projection of a row to its `(id, key)` binding. -/
def idKey (r : IdRow) : Nat × String := (r.id, r.key)

theorem appendToIdmap_map (idmap : Option IdMap) (rows : List SliceRow)
    (p : IdRow → γ) :
    (appendToIdmap idmap rows).map p =
      (idmap.getD []).map p ++
        (rows.enum.map fun q =>
          p { id := (idmap.getD []).length + q.1, key := q.2.key,
              vec := q.2.vec, meta := q.2.meta, alive := true }) := by
  simp [appendToIdmap, List.map_map, Function.comp_def]

theorem appendToIdmap_length (idmap : Option IdMap) (rows : List SliceRow) :
    (appendToIdmap idmap rows).length = (idmap.getD []).length + rows.length := by
  simp [appendToIdmap]

theorem appendToIdmap_map_id (idmap : Option IdMap) (rows : List SliceRow) :
    (appendToIdmap idmap rows).map (·.id) =
      (idmap.getD []).map (·.id) ++
        (List.range rows.length).map ((idmap.getD []).length + ·) := by
  rw [appendToIdmap_map]
  congr 1
  have hf : (fun q : ℕ × SliceRow =>
      (⟨(idmap.getD []).length + q.1, q.2.key, q.2.vec, q.2.meta, true⟩ : IdRow).id)
      = (fun x => (idmap.getD []).length + x) ∘ Prod.fst := rfl
  rw [hf, List.enum_eq_zip_range, ← List.map_map,
    List.map_fst_zip _ _ (by simp)]

theorem deleteByKeys_some (t : IdMap) (keys : List String) :
    deleteByKeys (some t) keys =
      (let toKill := keys.filterMap (lastIndexOf (t.map (·.key)))
       if toKill = [] then (some t, 0)
       else
         (some (t.mapIdx fun i r =>
           if i ∈ toKill then { r with alive := false } else r), toKill.length)) :=
  rfl

theorem deleteByKeys_map_of_alive_blind (t : IdMap) (keys : List String)
    (p : IdRow → γ) (hp : ∀ r : IdRow, p { r with alive := false } = p r) :
    ((deleteByKeys (some t) keys).1.getD []).map p = t.map p := by
  rw [deleteByKeys_some]
  by_cases h0 : keys.filterMap (lastIndexOf (t.map (·.key))) = []
  · simp [h0]
  · simp only [h0, if_neg, ite_false, Option.getD_some,
      List.mapIdx_eq_enum_map, List.map_map]
    have hq : ∀ q ∈ t.enum,
        (p ∘ Function.uncurry fun i r =>
          if i ∈ keys.filterMap (lastIndexOf (t.map (·.key))) then
            { r with alive := false } else r) q = (p ∘ Prod.snd) q := by
      rintro ⟨i, r⟩ _
      simp only [Function.comp_apply, Function.uncurry_apply_pair]
      by_cases h : i ∈ keys.filterMap (lastIndexOf (t.map (·.key)))
      · rw [if_pos h]; exact hp r
      · rw [if_neg h]
    rw [List.map_congr_left hq, List.enum_eq_zip_range, ← List.map_map,
      List.map_snd_zip _ _ (by simp)]

theorem deleteByKeys_length (t : IdMap) (keys : List String) :
    ((deleteByKeys (some t) keys).1.getD []).length = t.length := by
  have := congrArg List.length
    (deleteByKeys_map_of_alive_blind t keys frozenCols (fun _ => rfl))
  simpa using this

theorem applyOp_build_of_ne (tbl : Option IdMap) (staged : List (List SliceRow))
    (h : staged ≠ []) :
    applyOp tbl (.build staged) = some (appendToIdmap tbl staged.flatten) := by
  simp [applyOp, processNewSlices, h]

theorem applyOp_build_nil (tbl : Option IdMap) :
    applyOp tbl (.build []) = tbl := by
  simp [applyOp, processNewSlices]

theorem applyOp_del (tbl : Option IdMap) (keys : List String) :
    applyOp tbl (.del keys) = (deleteByKeys tbl keys).1 := rfl

theorem deleteByKeys_none (keys : List String) :
    deleteByKeys none keys = (none, 0) := rfl

theorem applyOp_length_mono (tbl : Option IdMap) (op : Op) :
    (tbl.getD []).length ≤ ((applyOp tbl op).getD []).length := by
  cases op with
  | build staged =>
    by_cases h : staged = []
    · simp [h, applyOp_build_nil]
    · simp [applyOp_build_of_ne tbl staged h, appendToIdmap_length]
  | del keys =>
    rw [applyOp_del]
    cases tbl with
    | none => simp [deleteByKeys_none]
    | some t => simp [deleteByKeys_length]

theorem applyOp_dense (tbl : Option IdMap) (op : Op)
    (h : (tbl.getD []).map (·.id) = List.range (tbl.getD []).length) :
    ((applyOp tbl op).getD []).map (·.id) =
      List.range ((applyOp tbl op).getD []).length := by
  cases op with
  | build staged =>
    by_cases hs : staged = []
    · rw [hs, applyOp_build_nil]; exact h
    · rw [applyOp_build_of_ne tbl staged hs, Option.getD_some,
        appendToIdmap_map_id, appendToIdmap_length, h, List.range_add]
  | del keys =>
    rw [applyOp_del]
    cases tbl with
    | none => simp only [deleteByKeys_none]; exact h
    | some t =>
      rw [deleteByKeys_map_of_alive_blind t keys (·.id) (fun _ => rfl),
        deleteByKeys_length]
      simpa using h

theorem applyOp_idKey_take (tbl : Option IdMap) (op : Op) :
    (((applyOp tbl op).getD []).map idKey).take (tbl.getD []).length =
      (tbl.getD []).map idKey := by
  cases op with
  | build staged =>
    by_cases hs : staged = []
    · rw [hs, applyOp_build_nil]; exact List.take_of_length_le (by simp)
    · rw [applyOp_build_of_ne tbl staged hs, Option.getD_some,
        appendToIdmap_map tbl _ idKey]
      exact List.take_left' (by simp)
  | del keys =>
    rw [applyOp_del]
    cases tbl with
    | none => simp [deleteByKeys_none]
    | some t =>
      rw [deleteByKeys_map_of_alive_blind t keys idKey (fun _ => rfl)]
      exact List.take_of_length_le (by simp)

theorem foldl_length_mono (ops : List Op) (tbl : Option IdMap) :
    (tbl.getD []).length ≤ ((ops.foldl applyOp tbl).getD []).length := by
  induction ops generalizing tbl with
  | nil => exact le_rfl
  | cons o rest ih =>
    exact le_trans (applyOp_length_mono tbl o) (ih (applyOp tbl o))

theorem foldl_idKey_take (ops : List Op) (tbl : Option IdMap) :
    (((ops.foldl applyOp tbl).getD []).map idKey).take (tbl.getD []).length =
      (tbl.getD []).map idKey := by
  induction ops generalizing tbl with
  | nil => exact List.take_of_length_le (by simp)
  | cons o rest ih =>
    have h1 := ih (applyOp tbl o)
    have h2 := applyOp_idKey_take tbl o
    have hle : (tbl.getD []).length ≤ ((applyOp tbl o).getD []).length :=
      applyOp_length_mono tbl o
    calc (((( o :: rest).foldl applyOp tbl).getD []).map idKey).take (tbl.getD []).length
        = ((((rest.foldl applyOp (applyOp tbl o)).getD []).map idKey).take
            ((applyOp tbl o).getD []).length).take (tbl.getD []).length := by
          rw [List.take_take, Nat.min_eq_left hle]; rfl
      _ = ((((applyOp tbl o)).getD []).map idKey).take (tbl.getD []).length := by
          rw [h1]
      _ = (tbl.getD []).map idKey := h2

theorem foldl_dense (ops : List Op) (tbl : Option IdMap)
    (h : (tbl.getD []).map (·.id) = List.range (tbl.getD []).length) :
    ((ops.foldl applyOp tbl).getD []).map (·.id) =
      List.range ((ops.foldl applyOp tbl).getD []).length := by
  induction ops generalizing tbl with
  | nil => exact h
  | cons o rest ih => exact ih (applyOp tbl o) (applyOp_dense tbl o h)

end Indexer

namespace FilterT

/-- Python scalar values appearing in filter leaves and in metadata maps.
Numbers are modelled as integers: every numeric literal in the claims
and tests is an integer, and Python float rendering/semantics
(`str(1.5)`, NaN) is floating point and outside this embedding. -/
inductive PyVal where
  | b (x : Bool)
  | i (n : Int)
  | s (v : String)
  deriving Repr, DecidableEq

/-- The `value` field of a filter leaf: a scalar or a list of scalars
(`value: Any` in `models.FilterCondition`). -/
inductive FilterValue where
  | scalar (v : PyVal)
  | list (vs : List PyVal)
  deriving Repr, DecidableEq

mutual

/-- The filter document tree, as accepted by the API models
(`models.py`): logical nodes `{"operator": "and"|"or", "conditions":
[...]}` and leaves `{"operator": ..., "metadata_key": ..., "value":
...}`.  The condition list is a structurally inlined list so that the
mutually recursive functions below reduce definitionally.  `not` nodes
(handled only by the Python path and absent from the API models) are
not represented. -/
inductive FilterDoc where
  | logical (op : String) (conditions : FilterConds)
  | cond (op : String) (metadataKey : String) (value : FilterValue)

/-- A list of filter conditions (the `conditions` array). -/
inductive FilterConds where
  | nil
  | cons (head : FilterDoc) (tail : FilterConds)

end

/-- Operator of the root node of a filter document. -/
def FilterDoc.opOf : FilterDoc → String
  | .logical op _ => op
  | .cond op _ _ => op

/-- Is the condition list empty? -/
def FilterConds.isNil : FilterConds → Bool
  | .nil => true
  | .cons _ _ => false

/-- Python `repr` of a scalar, as used by `str(list)`
(`True`/`False`, decimal integers, single-quoted strings). -/
def pyReprScalar : PyVal → String
  | .b true => "True"
  | .b false => "False"
  | .i n => toString n
  | .s v => "'" ++ v ++ "'"

/-- Python `str` of a list of scalars (`str(['a', 1])` =
`"['a', 1]"`). -/
def pyStrList (vs : List PyVal) : String :=
  "[" ++ String.intercalate ", " (vs.map pyReprScalar) ++ "]"

/-- Mirrors `format_sql_value` (`src/app/lance/filter_translate.py:120`):
booleans render as `TRUE`/`FALSE`, numbers unquoted via `str(val)`,
everything else via `str(val)` with single quotes doubled and the
result single-quoted.  A list value falls into the string branch via
`str(val)`. -/
def formatSqlValue : FilterValue → String
  | .scalar (.b true) => "TRUE"
  | .scalar (.b false) => "FALSE"
  | .scalar (.i n) => toString n
  | .scalar (.s v) => "'" ++ v.replace "'" "''" ++ "'"
  | .list vs => "'" ++ (pyStrList vs).replace "'" "''" ++ "'"

/-- Mirrors `key_expr` (`src/app/lance/filter_translate.py:10`): a key that is
a schema column name is emitted as the double-quoted typed column;
otherwise as `json_extract` over the `metadata_json` blob.  The key is
interpolated verbatim in both branches. -/
def keyExpr (cols : List String) (key : String) : String :=
  if key ∈ cols then "\"" ++ key ++ "\""
  else "json_extract(metadata_json, '$." ++ key ++ "')"

/-- Python truthiness of a filter value (`if value:`). -/
def pyTruthy : FilterValue → Bool
  | .scalar (.b x) => x
  | .scalar (.i n) => n ≠ 0
  | .scalar (.s v) => v ≠ ""
  | .list vs => !vs.isEmpty

mutual

/-- Mirrors `_translate_aws_filter(filter_doc, table)`
(`src/app/lance/filter_translate.py:55`): logical nodes join their
translated children with ` AND `/` OR ` in parentheses (empty list →
`TRUE`); a leaf with empty `metadata_key` → `TRUE`; otherwise the
column expression is `key_expr(table, key)` when a table is given and
the `json_extract` form when not, the comparison operators append the
formatted literal, `in`/`not_in` expand the list (empty or non-list →
`FALSE`/`TRUE`), `exists` maps to `IS (NOT) NULL`, and an unknown
operator yields `TRUE`.  `cols` is the table's schema name list,
`none` when no table is passed (as in `search_vectors`). -/
def translateAws (cols : Option (List String)) : FilterDoc → String
  | .logical op conds =>
      if op = "and" ∨ op = "$and" then
        match conds with
        | .nil => "TRUE"
        | _ => "(" ++ String.intercalate " AND " (translateConds cols conds) ++ ")"
      else if op = "or" ∨ op = "$or" then
        match conds with
        | .nil => "TRUE"
        | _ => "(" ++ String.intercalate " OR " (translateConds cols conds) ++ ")"
      else "TRUE"
  | .cond op mkey value =>
      if mkey = "" then "TRUE"
      else
        let column :=
          match cols with
          | some cs => keyExpr cs mkey
          | none => "json_extract(metadata_json, '$." ++ mkey ++ "')"
        if op = "equals" ∨ op = "$eq" then column ++ " = " ++ formatSqlValue value
        else if op = "not_equals" ∨ op = "$ne" then
          column ++ " != " ++ formatSqlValue value
        else if op = "greater_than" ∨ op = "$gt" then
          column ++ " > " ++ formatSqlValue value
        else if op = "greater_equal" ∨ op = "$gte" then
          column ++ " >= " ++ formatSqlValue value
        else if op = "less_than" ∨ op = "$lt" then
          column ++ " < " ++ formatSqlValue value
        else if op = "less_equal" ∨ op = "$lte" then
          column ++ " <= " ++ formatSqlValue value
        else if op = "in" ∨ op = "$in" then
          match value with
          | .list [] => "FALSE"
          | .list vs =>
              column ++ " IN (" ++
                String.intercalate ", " (vs.map fun v => formatSqlValue (.scalar v)) ++ ")"
          | .scalar _ => "FALSE"
        else if op = "not_in" ∨ op = "$nin" then
          match value with
          | .list [] => "TRUE"
          | .list vs =>
              column ++ " NOT IN (" ++
                String.intercalate ", " (vs.map fun v => formatSqlValue (.scalar v)) ++ ")"
          | .scalar _ => "TRUE"
        else if op = "exists" ∨ op = "$exists" then
          if pyTruthy value then column ++ " IS NOT NULL"
          else column ++ " IS NULL"
        else "TRUE"

/-- Children of a logical node, translated in order. -/
def translateConds (cols : Option (List String)) : FilterConds → List String
  | .nil => []
  | .cons f rest => translateAws cols f :: translateConds cols rest

end

/-- Mirrors `aws_filter_to_where(filter_doc, table=None)`
(`src/app/lance/filter_translate.py:36`); a present (non-empty) filter
document is handed to `_translate_aws_filter`. -/
def awsFilterToWhere (f : FilterDoc) (cols : Option (List String)) : String :=
  translateAws cols f

/-- One dataframe row of a Lance table as both filter paths see it
(`prepare_batch_data` writes `key`, `vector`, `metadata_json` and one
typed column per filterable key).  `typed` holds the typed-column
cells (`none` = SQL NULL cell); `metadataJson` is the parsed content
of the `metadata_json` column (`none` = NULL); `nonfilter` is the
parsed content of a `nonfilter` column if one is present and non-null
— this is the only column `_apply_python_filter` reads.  The vector
payload is irrelevant to filtering and omitted. -/
structure Row where
  key : String
  typed : List (String × Option PyVal)
  metadataJson : Option (List (String × PyVal))
  nonfilter : Option (List (String × PyVal))
  deriving Repr, DecidableEq

/-- Value of the column expression emitted for a leaf key: the typed
column cell when the key names a schema column (and a table was
passed), otherwise `json_extract(metadata_json, '$.key')`, which is
NULL when the blob is NULL or the key absent. -/
def columnVal (cols : Option (List String)) (r : Row) (mkey : String) : Option PyVal :=
  match cols with
  | some cs =>
      if mkey ∈ cs then (r.typed.lookup mkey).join
      else r.metadataJson.bind (List.lookup mkey)
  | none => r.metadataJson.bind (List.lookup mkey)

/-- SQL comparison of two runtime values; `none` is the unknown/NULL
outcome (also used for mixed-type comparisons, which the engine
rejects — no claim relies on them). -/
def sqlCmp (op : String) (a b : PyVal) : Option Bool :=
  match a, b with
  | .i x, .i y =>
      if op = "=" then some (x = y)
      else if op = "!=" then some (x ≠ y)
      else if op = ">" then some (x > y)
      else if op = ">=" then some (x ≥ y)
      else if op = "<" then some (x < y)
      else if op = "<=" then some (x ≤ y)
      else none
  | .s x, .s y =>
      if op = "=" then some (x = y)
      else if op = "!=" then some (x ≠ y)
      else if op = ">" then some (y < x)
      else if op = ">=" then some (¬x < y)
      else if op = "<" then some (x < y)
      else if op = "<=" then some (¬y < x)
      else none
  | .b x, .b y =>
      if op = "=" then some (x = y)
      else if op = "!=" then some (x ≠ y)
      else none
  | _, _ => none

/-- Kleene three-valued AND (SQL `AND` over nullable booleans). -/
def kAnd : Option Bool → Option Bool → Option Bool
  | some false, _ => some false
  | _, some false => some false
  | some true, some true => some true
  | _, _ => none

/-- Kleene three-valued OR (SQL `OR` over nullable booleans). -/
def kOr : Option Bool → Option Bool → Option Bool
  | some true, _ => some true
  | _, some true => some true
  | some false, some false => some false
  | _, _ => none

/-- Kleene three-valued NOT. -/
def kNot : Option Bool → Option Bool
  | some x => some (!x)
  | none => none

/-- The SQL literal denoted by `format_sql_value`'s output: scalars
denote themselves; a list falls into the string branch and denotes
the string `str(list)`. -/
def litVal : FilterValue → PyVal
  | .scalar v => v
  | .list vs => .s (pyStrList vs)

mutual

/-- SQL semantics of the WHERE clause `_translate_aws_filter` builds,
branch for branch: logical nodes are Kleene `AND`/`OR` folds of their
children (empty list → the `TRUE` clause); `TRUE`/`FALSE` clauses are
`some true`/`some false`; a comparison against a NULL column is NULL;
`IN (v1, …)` is the Kleene fold of the equalities, `NOT IN` its
negation, `exists` the two-valued `IS (NOT) NULL`.  A row is selected
iff the WHERE clause evaluates to `some true`. -/
def sqlEvalFilter (cols : Option (List String)) (r : Row) : FilterDoc → Option Bool
  | .logical op conds =>
      if op = "and" ∨ op = "$and" then
        match conds with
        | .nil => some true
        | _ => (sqlEvalConds cols r conds).foldr kAnd (some true)
      else if op = "or" ∨ op = "$or" then
        match conds with
        | .nil => some true
        | _ => (sqlEvalConds cols r conds).foldr kOr (some false)
      else some true
  | .cond op mkey value =>
      if mkey = "" then some true
      else
        let col := columnVal cols r mkey
        if op = "equals" ∨ op = "$eq" then
          col.bind fun a => sqlCmp "=" a (litVal value)
        else if op = "not_equals" ∨ op = "$ne" then
          col.bind fun a => sqlCmp "!=" a (litVal value)
        else if op = "greater_than" ∨ op = "$gt" then
          col.bind fun a => sqlCmp ">" a (litVal value)
        else if op = "greater_equal" ∨ op = "$gte" then
          col.bind fun a => sqlCmp ">=" a (litVal value)
        else if op = "less_than" ∨ op = "$lt" then
          col.bind fun a => sqlCmp "<" a (litVal value)
        else if op = "less_equal" ∨ op = "$lte" then
          col.bind fun a => sqlCmp "<=" a (litVal value)
        else if op = "in" ∨ op = "$in" then
          match value with
          | .list [] => some false
          | .list vs =>
              col.bind fun a => (vs.map fun v => sqlCmp "=" a v).foldr kOr (some false)
          | .scalar _ => some false
        else if op = "not_in" ∨ op = "$nin" then
          match value with
          | .list [] => some true
          | .list vs =>
              kNot (col.bind fun a =>
                (vs.map fun v => sqlCmp "=" a v).foldr kOr (some false))
          | .scalar _ => some true
        else if op = "exists" ∨ op = "$exists" then
          if pyTruthy value then some col.isSome else some col.isNone
        else some true

/-- SQL semantics of a logical node's children, in order. -/
def sqlEvalConds (cols : Option (List String)) (r : Row) :
    FilterConds → List (Option Bool)
  | .nil => []
  | .cons f rest => sqlEvalFilter cols r f :: sqlEvalConds cols r rest

end

/-- The rows a SQL WHERE clause selects: those on which it evaluates
to true (the pushdown path `search_query.where(where_clause)`). -/
def pushdownSelect (cols : Option (List String)) (rows : List Row)
    (f : FilterDoc) : List Row :=
  rows.filter fun r => sqlEvalFilter cols r f = some true

/-- Python `==` between runtime scalars: same-type equality, with
`bool` comparing equal to its integer value (`True == 1`), and `False`
for mismatched types. -/
def pyEq : PyVal → PyVal → Bool
  | .b x, .b y => x = y
  | .i x, .i y => x = y
  | .s x, .s y => x = y
  | .b x, .i y => (if x then (1 : Int) else 0) = y
  | .i x, .b y => x = (if y then (1 : Int) else 0)
  | _, _ => false

/-- Python `==` between a scalar and a filter value (a scalar never
equals a list). -/
def pyEqVal (a : PyVal) : FilterValue → Bool
  | .scalar v => pyEq a v
  | .list _ => false

/-- Python `float(v)`: numbers and booleans convert; string conversion
(CPython parses numeric strings) is modelled as failure — no claim
exercises ordering comparisons on string values. -/
def pyFloat : PyVal → Option ℚ
  | .i n => some (n : ℚ)
  | .b x => some (if x then 1 else 0)
  | .s _ => none

/-- Python `float(actual) <op> float(filter_value)` wrapped in
`try/except` returning `False`: `None`, lists and non-convertible
values all yield `False`. -/
def pyCmpNum (cmp : ℚ → ℚ → Bool) (actual : Option PyVal)
    (value : FilterValue) : Bool :=
  match actual, value with
  | some a, .scalar v =>
      match pyFloat a, pyFloat v with
      | some x, some y => cmp x y
      | _, _ => false
  | _, _ => false

mutual

/-- Mirrors `check_condition` of `_apply_python_filter`
(`src/app/lance/index_ops.py:272`): `and`/`or` recurse over
`conditions`; any other operator falls to the leaf branch, which
returns `True` for a missing `metadata_key`, reads the metadata map
from the row's `nonfilter` column (`{}` when absent or null — the
`try/except`), and compares `metadata.get(metadata_key)` against the
filter value; an unknown operator returns `True`.  Note the Python
path accepts the short aliases `gt`/`gte`/`lt`/`lte`, not the
`$`-prefixed ones. -/
def checkCondition (r : Row) : FilterDoc → Bool
  | .logical op conds =>
      if op = "and" then (checkConds r conds).all id
      else if op = "or" then (checkConds r conds).any id
      else true
  | .cond op mkey value =>
      if mkey = "" then true
      else
        let md := r.nonfilter.getD []
        let actual := md.lookup mkey
        if op = "equals" then
          match actual with
          | some a => pyEqVal a value
          | none => false
        else if op = "not_equals" then
          match actual with
          | some a => !pyEqVal a value
          | none => true
        else if op = "in" then
          match value with
          | .list vs =>
              match actual with
              | some a => vs.any (pyEq a)
              | none => false
          | .scalar _ => false
        else if op = "not_in" then
          match value with
          | .list vs =>
              match actual with
              | some a => !vs.any (pyEq a)
              | none => true
          | .scalar _ => true
        else if op = "greater_than" ∨ op = "gt" then
          pyCmpNum (fun x y => x > y) actual value
        else if op = "greater_equal" ∨ op = "gte" then
          pyCmpNum (fun x y => x ≥ y) actual value
        else if op = "less_than" ∨ op = "lt" then
          pyCmpNum (fun x y => x < y) actual value
        else if op = "less_equal" ∨ op = "lte" then
          pyCmpNum (fun x y => x ≤ y) actual value
        else if op = "exists" then
          pyEqVal (.b actual.isSome) value
        else true

/-- Application of `check_condition` over a list of children. -/
def checkConds (r : Row) : FilterConds → List Bool
  | .nil => []
  | .cons f rest => checkCondition r f :: checkConds r rest

end

/-- Mirrors `_apply_python_filter(df, filter_condition)`: keep the rows on
which `check_condition` holds (the postfilter fallback path). -/
def applyPythonFilter (rows : List Row) (f : FilterDoc) : List Row :=
  rows.filter fun r => checkCondition r f

/-- Is the scalar a string? -/
def isStrPy : PyVal → Bool
  | .s _ => true
  | _ => false

/-- Is the filter value a string scalar? -/
def isStrScalar : FilterValue → Bool
  | .scalar (.s _) => true
  | _ => false

/-- Is the filter value a list of strings? -/
def isStrList : FilterValue → Bool
  | .list vs => vs.all isStrPy
  | _ => false

/-- Is the filter value a boolean scalar? -/
def isBoolScalar : FilterValue → Bool
  | .scalar (.b _) => true
  | _ => false

/-- The metadata map holds a string (or nothing) under `k`. -/
def strOrAbsent (md : List (String × PyVal)) (k : String) : Bool :=
  match md.lookup k with
  | none => true
  | some (.s _) => true
  | some _ => false

/-- The metadata map holds a string under `k`. -/
def presentStr (md : List (String × PyVal)) (k : String) : Bool :=
  match md.lookup k with
  | some (.s _) => true
  | _ => false

mutual

/-- Sufficient condition for the pushdown and postfilter paths to agree
on a row with metadata map `md`: logical nodes use the plain spellings
`and`/`or`; every leaf key is not a typed schema column; positive
leaves (`equals`, `in`) carry string values over string-or-absent keys,
negative leaves (`not_equals`, `not_in`) additionally need the key
present with a string value (`NULL != x` is NULL in SQL but
`None != x` is `True` in Python); `exists` carries a boolean.  An
empty `or` node is excluded: the translator renders it `TRUE` while
Python's `any([])` is `False`. -/
def goodFor (cols : List String) (md : List (String × PyVal)) : FilterDoc → Bool
  | .logical op conds =>
      ((op = "and") || (op = "or" && !conds.isNil)) &&
        (goodForConds cols md conds).all id
  | .cond op mkey value =>
      decide (mkey ∉ cols) &&
      ((op = "equals" && isStrScalar value && strOrAbsent md mkey) ||
       (op = "not_equals" && isStrScalar value && presentStr md mkey) ||
       (op = "in" && isStrList value && strOrAbsent md mkey) ||
       (op = "not_in" && isStrList value && presentStr md mkey) ||
       (op = "exists" && isBoolScalar value))

/-- Conjunction of `goodFor` over a condition list. -/
def goodForConds (cols : List String) (md : List (String × PyVal)) :
    FilterConds → List Bool
  | .nil => []
  | .cons f rest => goodFor cols md f :: goodForConds cols md rest

end

theorem kAnd_eq_some_true :
    ∀ x y : Option Bool, kAnd x y = some true ↔ x = some true ∧ y = some true := by
  decide

theorem kOr_eq_some_true :
    ∀ x y : Option Bool, kOr x y = some true ↔ x = some true ∨ y = some true := by
  decide

theorem kOr_some (p q : Bool) : kOr (some p) (some q) = some (p || q) := by
  cases p <;> cases q <;> rfl

theorem foldr_kAnd_eq_some_true (l : List (Option Bool)) :
    l.foldr kAnd (some true) = some true ↔ ∀ x ∈ l, x = some true := by
  induction l with
  | nil => simp
  | cons x rest ih => simp [kAnd_eq_some_true, ih]

theorem foldr_kOr_eq_some_true (l : List (Option Bool)) :
    l.foldr kOr (some false) = some true ↔ ∃ x ∈ l, x = some true := by
  induction l with
  | nil => simp
  | cons x rest ih => simp [kOr_eq_some_true, ih, eq_comm]

theorem forall₂_all_iff {l1 : List (Option Bool)} {l2 : List Bool}
    (h : List.Forall₂ (fun o b => o = some true ↔ b = true) l1 l2) :
    ((∀ x ∈ l1, x = some true) ↔ l2.all id = true) := by
  induction h with
  | nil => simp
  | cons hob _ ih => simp_all

theorem forall₂_any_iff {l1 : List (Option Bool)} {l2 : List Bool}
    (h : List.Forall₂ (fun o b => o = some true ↔ b = true) l1 l2) :
    ((∃ x ∈ l1, x = some true) ↔ l2.any id = true) := by
  induction h with
  | nil => simp
  | cons hob _ ih =>
    simp only [List.exists_mem_cons_iff, List.any_cons, Bool.or_eq_true, ih,
      id_eq, hob]

theorem bind_lookup_getD (o : Option (List (String × PyVal))) (k : String) :
    o.bind (List.lookup k) = (o.getD []).lookup k := by
  cases o <;> simp

theorem foldr_kOr_strings (a : String) (vs : List PyVal) (h : vs.all isStrPy = true) :
    (vs.map fun v => sqlCmp "=" (.s a) v).foldr kOr (some false) =
      some (vs.any (pyEq (.s a))) := by
  induction vs with
  | nil => rfl
  | cons v rest ih =>
    simp only [List.all_cons, Bool.and_eq_true] at h
    cases v with
    | s y =>
      simp only [List.map_cons, List.foldr_cons, ih h.2, List.any_cons]
      rw [show sqlCmp "=" (.s a) (.s y) = some (decide (a = y)) from rfl, kOr_some]
      rfl
    | b x => simp [isStrPy] at h
    | i n => simp [isStrPy] at h

theorem strOrAbsent_cases {md : List (String × PyVal)} {k : String}
    (h : strOrAbsent md k = true) :
    md.lookup k = none ∨ ∃ s, md.lookup k = some (.s s) := by
  unfold strOrAbsent at h
  split at h
  · exact Or.inl (by assumption)
  · rename_i v heq
    exact Or.inr ⟨v, heq⟩
  · exact absurd h (by simp)

theorem presentStr_cases {md : List (String × PyVal)} {k : String}
    (h : presentStr md k = true) :
    ∃ s, md.lookup k = some (.s s) := by
  unfold presentStr at h
  split at h
  · rename_i v heq
    exact ⟨v, heq⟩
  · exact absurd h (by simp)

theorem leaf_equiv (cols : List String) (r : Row)
    (hr : r.nonfilter = r.metadataJson) (op mkey : String) (value : FilterValue)
    (hf : goodFor cols (r.metadataJson.getD []) (.cond op mkey value) = true) :
    (sqlEvalFilter (some cols) r (.cond op mkey value) = some true ↔
      checkCondition r (.cond op mkey value) = true) := by
  simp only [goodFor, Bool.and_eq_true, Bool.or_eq_true, decide_eq_true_eq] at hf
  obtain ⟨hcols, hops⟩ := hf
  by_cases hm : mkey = ""
  · simp [sqlEvalFilter, checkCondition, hm]
  have hcol : columnVal (some cols) r mkey =
      (r.metadataJson.getD []).lookup mkey := by
    rw [columnVal, if_neg hcols, bind_lookup_getD]
  have hact : (r.nonfilter.getD []).lookup mkey =
      (r.metadataJson.getD []).lookup mkey := by rw [hr]
  rcases hops with (((⟨⟨hop, hsv⟩, hmd⟩ | ⟨⟨hop, hsv⟩, hmd⟩) |
    ⟨⟨hop, hsv⟩, hmd⟩) | ⟨⟨hop, hsv⟩, hmd⟩) | ⟨hop, hsv⟩
  · -- equals
    obtain ⟨s, rfl⟩ : ∃ s, value = .scalar (.s s) := by
      cases value with
      | scalar v => cases v <;> simp_all [isStrScalar]
      | list vs => simp [isStrScalar] at hsv
    subst hop
    simp only [sqlEvalFilter, checkCondition, if_neg hm, hcol, hact]
    simp only [String.reduceEq, true_or, or_true, false_or, or_false, or_self,
      if_true, if_false]
    rcases strOrAbsent_cases hmd with hlook | ⟨y, hlook⟩
    · simp [hlook]
    · simp [hlook, litVal, sqlCmp, pyEqVal, pyEq]
  · -- not_equals
    obtain ⟨s, rfl⟩ : ∃ s, value = .scalar (.s s) := by
      cases value with
      | scalar v => cases v <;> simp_all [isStrScalar]
      | list vs => simp [isStrScalar] at hsv
    subst hop
    simp only [sqlEvalFilter, checkCondition, if_neg hm, hcol, hact]
    simp only [String.reduceEq, true_or, or_true, false_or, or_false, or_self,
      if_true, if_false]
    obtain ⟨y, hlook⟩ := presentStr_cases hmd
    simp [hlook, litVal, sqlCmp, pyEqVal, pyEq]
  · -- in
    obtain ⟨vs, rfl⟩ : ∃ vs, value = .list vs := by
      cases value with
      | scalar v => simp [isStrList] at hsv
      | list vs => exact ⟨vs, rfl⟩
    subst hop
    simp only [isStrList] at hsv
    simp only [sqlEvalFilter, checkCondition, if_neg hm, hcol, hact]
    simp only [String.reduceEq, true_or, or_true, false_or, or_false, or_self,
      if_true, if_false]
    cases vs with
    | nil => cases (r.metadataJson.getD []).lookup mkey <;> simp
    | cons v rest =>
      rcases strOrAbsent_cases hmd with hlook | ⟨y, hlook⟩
      · simp [hlook]
      · simp only [hlook, Option.some_bind]
        rw [foldr_kOr_strings y (v :: rest) hsv]
        simp
  · -- not_in
    obtain ⟨vs, rfl⟩ : ∃ vs, value = .list vs := by
      cases value with
      | scalar v => simp [isStrList] at hsv
      | list vs => exact ⟨vs, rfl⟩
    subst hop
    simp only [isStrList] at hsv
    simp only [sqlEvalFilter, checkCondition, if_neg hm, hcol, hact]
    simp only [String.reduceEq, true_or, or_true, false_or, or_false, or_self,
      if_true, if_false]
    cases vs with
    | nil => cases (r.metadataJson.getD []).lookup mkey <;> simp
    | cons v rest =>
      obtain ⟨y, hlook⟩ := presentStr_cases hmd
      simp only [hlook, Option.some_bind]
      rw [foldr_kOr_strings y (v :: rest) hsv]
      simp [kNot]
  · -- exists
    obtain ⟨bv, rfl⟩ : ∃ bv, value = .scalar (.b bv) := by
      cases value with
      | scalar v => cases v <;> simp_all [isBoolScalar]
      | list vs => simp [isBoolScalar] at hsv
    subst hop
    simp only [sqlEvalFilter, checkCondition, if_neg hm, hcol, hact]
    simp only [String.reduceEq, true_or, or_true, false_or, or_false, or_self,
      if_true, if_false]
    cases hlook : (r.metadataJson.getD []).lookup mkey with
    | none => cases bv <;> simp [hlook, pyTruthy, pyEqVal, pyEq]
    | some a => cases bv <;> simp [hlook, pyTruthy, pyEqVal, pyEq]

mutual

theorem sqlPyEquivF (cols : List String) (r : Row)
    (hr : r.nonfilter = r.metadataJson) :
    ∀ f : FilterDoc, goodFor cols (r.metadataJson.getD []) f = true →
      (sqlEvalFilter (some cols) r f = some true ↔ checkCondition r f = true)
  | .cond op mkey value, hf => leaf_equiv cols r hr op mkey value hf
  | .logical op conds, hf => by
      simp only [goodFor, Bool.and_eq_true, Bool.or_eq_true,
        Bool.not_eq_true', decide_eq_true_eq] at hf
      obtain ⟨hop, hall⟩ := hf
      have hconds := sqlPyEquivC cols r hr conds hall
      rcases hop with hop | ⟨hop, hnil⟩ <;> subst hop
      · cases conds with
        | nil => simp [sqlEvalFilter, checkCondition, checkConds]
        | cons f rest =>
          show (sqlEvalConds (some cols) r (.cons f rest)).foldr kAnd (some true)
              = some true ↔ (checkConds r (.cons f rest)).all id = true
          rw [foldr_kAnd_eq_some_true]
          exact forall₂_all_iff hconds
      · cases conds with
        | nil => simp [FilterConds.isNil] at hnil
        | cons f rest =>
          show (sqlEvalConds (some cols) r (.cons f rest)).foldr kOr (some false)
              = some true ↔ (checkConds r (.cons f rest)).any id = true
          rw [foldr_kOr_eq_some_true]
          exact forall₂_any_iff hconds

theorem sqlPyEquivC (cols : List String) (r : Row)
    (hr : r.nonfilter = r.metadataJson) :
    ∀ cs : FilterConds,
      (goodForConds cols (r.metadataJson.getD []) cs).all id = true →
      List.Forall₂ (fun (o : Option Bool) (b : Bool) => o = some true ↔ b = true)
        (sqlEvalConds (some cols) r cs) (checkConds r cs)
  | .nil, _ => by
      rw [sqlEvalConds, checkConds]
      exact List.Forall₂.nil
  | .cons f rest, h => by
      simp only [goodForConds, List.all_cons, Bool.and_eq_true, id_eq] at h
      rw [sqlEvalConds, checkConds]
      exact List.Forall₂.cons (sqlPyEquivF cols r hr f h.1)
        (sqlPyEquivC cols r hr rest h.2)

end

end FilterT

/-- C2 counterexample: a dataset and filter on which the pushdown and
postfilter paths disagree.  The table's schema has the typed column
`cat` (the key was promoted on write), the row stores `cat = 'x'` in
that typed column and nothing in the JSON blob.  The filter
`{equals, cat, "x"}` translates to `"cat" = 'x'`, which selects the
row; the Python predicate reads only the row's JSON metadata column,
finds no `cat`, and rejects it. -/
theorem C2_counterexample :
    FilterT.pushdownSelect (some ["key", "vector", "metadata_json", "cat"])
        [{ key := "k", typed := [("cat", some (.s "x"))], metadataJson := none,
           nonfilter := none }]
        (.cond "equals" "cat" (.scalar (.s "x"))) =
      [{ key := "k", typed := [("cat", some (.s "x"))], metadataJson := none,
         nonfilter := none }] ∧
    FilterT.applyPythonFilter
        [{ key := "k", typed := [("cat", some (.s "x"))], metadataJson := none,
           nonfilter := none }]
        (.cond "equals" "cat" (.scalar (.s "x"))) = ([] : List FilterT.Row) ∧
    ([({ key := "k", typed := [("cat", some (.s "x"))], metadataJson := none,
         nonfilter := none } : FilterT.Row)] : List FilterT.Row) ≠ [] := by
  refine ⟨by decide, by decide, by decide⟩

/-- C2 (amended): the two filter paths agree only away from typed
columns — the Python postfilter reads just the row's JSON metadata
column, so rows whose filtered keys live in typed columns are selected
by the pushdown translation but never by the postfilter.  Restricted
to filters built from `and`/`or` (plain spellings, `or` non-empty)
over leaves whose `metadata_key` is not a typed schema column, with
`equals`/`in` over string values on string-or-absent keys,
`not_equals`/`not_in` additionally on present string keys, and
`exists` with boolean values, and to rows whose `nonfilter` column
equals their `metadata_json` column, the two paths select exactly the
same rows. -/
theorem C2_pushdown_postfilter_agree_on_json (cols : List String)
    (rows : List FilterT.Row) (f : FilterT.FilterDoc)
    (hgood : ∀ r ∈ rows, FilterT.goodFor cols (r.metadataJson.getD []) f = true)
    (hnf : ∀ r ∈ rows, r.nonfilter = r.metadataJson) :
    FilterT.pushdownSelect (some cols) rows f =
      FilterT.applyPythonFilter rows f := by
  unfold FilterT.pushdownSelect FilterT.applyPythonFilter
  apply List.filter_congr
  intro r hrmem
  have h := FilterT.sqlPyEquivF cols r (hnf r hrmem) f (hgood r hrmem)
  cases hc : FilterT.checkCondition r f with
  | true => simpa [hc] using h.mpr hc
  | false =>
    rcases h' : FilterT.sqlEvalFilter (some cols) r f with - | b
    · simp
    · cases b with
      | true => rw [hc] at h; exact absurd (h.mp h') (by simp)
      | false => simp

/-- Witness for C2 (amended): a one-row dataset whose metadata lives in
the JSON blob, with an `equals` filter on a non-promoted key — both
paths select the row. -/
theorem C2_pushdown_postfilter_agree_on_json_witness :
    FilterT.pushdownSelect (some ["cat"])
        [{ key := "k", typed := [], metadataJson := some [("k1", .s "v")],
           nonfilter := some [("k1", .s "v")] }]
        (.cond "equals" "k1" (.scalar (.s "v"))) =
      FilterT.applyPythonFilter
        [{ key := "k", typed := [], metadataJson := some [("k1", .s "v")],
           nonfilter := some [("k1", .s "v")] }]
        (.cond "equals" "k1" (.scalar (.s "v"))) :=
  C2_pushdown_postfilter_agree_on_json ["cat"] _ _ (by decide) (by decide)

/-- C4 counterexample: `metadata_key` is interpolated verbatim, so key
content can change the syntactic structure of the generated WHERE
clause.  Two different filter trees — an AND node and an OR node, with
quote-and-parenthesis payloads inside `metadata_key` — produce the
identical clause string, and the two trees have different predicate
semantics on the row `{a: 1}` (the Python evaluation of the same trees
differs), so the claim that no string content of `metadata_key` can
alter the clause structure is false. -/
theorem C4_counterexample :
    FilterT.awsFilterToWhere
        (.logical "and" (.cons
          (.cond "equals" "a') = 1 OR json_extract(metadata_json, '$.b"
            (.scalar (.i 1)))
          (.cons (.cond "equals" "c" (.scalar (.i 1))) .nil))) none =
      FilterT.awsFilterToWhere
        (.logical "or" (.cons
          (.cond "equals" "a" (.scalar (.i 1)))
          (.cons (.cond "equals" "b') = 1 AND json_extract(metadata_json, '$.c"
            (.scalar (.i 1))) .nil))) none ∧
    FilterT.FilterDoc.opOf
        (.logical "and" (.cons
          (.cond "equals" "a') = 1 OR json_extract(metadata_json, '$.b"
            (.scalar (.i 1)))
          (.cons (.cond "equals" "c" (.scalar (.i 1))) .nil))) = "and" ∧
    FilterT.FilterDoc.opOf
        (.logical "or" (.cons
          (.cond "equals" "a" (.scalar (.i 1)))
          (.cons (.cond "equals" "b') = 1 AND json_extract(metadata_json, '$.c"
            (.scalar (.i 1))) .nil))) = "or" ∧
    FilterT.checkCondition
        { key := "k", typed := [], metadataJson := some [("a", .i 1)],
          nonfilter := some [("a", .i 1)] }
        (.logical "and" (.cons
          (.cond "equals" "a') = 1 OR json_extract(metadata_json, '$.b"
            (.scalar (.i 1)))
          (.cons (.cond "equals" "c" (.scalar (.i 1))) .nil))) = false ∧
    FilterT.checkCondition
        { key := "k", typed := [], metadataJson := some [("a", .i 1)],
          nonfilter := some [("a", .i 1)] }
        (.logical "or" (.cons
          (.cond "equals" "a" (.scalar (.i 1)))
          (.cons (.cond "equals" "b') = 1 AND json_extract(metadata_json, '$.c"
            (.scalar (.i 1))) .nil))) = true := by
  refine ⟨by decide, rfl, rfl, by decide, by decide⟩

/-- C4 (amended): only the leaf's `value` passes through
`format_sql_value` — booleans render as `TRUE`/`FALSE`, numbers
unquoted, strings single-quoted with single quotes doubled — while
`metadata_key` is interpolated into the clause verbatim, with no
escaping (so quotes inside the key can change the clause's structure,
as the counterexample shows). -/
theorem C4_value_escaped_key_verbatim :
    (∀ s : String,
      FilterT.formatSqlValue (.scalar (.s s)) = "'" ++ s.replace "'" "''" ++ "'") ∧
    FilterT.formatSqlValue (.scalar (.b true)) = "TRUE" ∧
    FilterT.formatSqlValue (.scalar (.b false)) = "FALSE" ∧
    (∀ n : Int, FilterT.formatSqlValue (.scalar (.i n)) = toString n) ∧
    (∀ (k : String) (v : FilterT.FilterValue), k ≠ "" →
      FilterT.awsFilterToWhere (.cond "equals" k v) none =
        ("json_extract(metadata_json, '$." ++ k ++ "')") ++ " = " ++
          FilterT.formatSqlValue v) := by
  refine ⟨fun s => rfl, rfl, rfl, fun n => rfl, fun k v hk => ?_⟩
  simp [FilterT.awsFilterToWhere, FilterT.translateAws, hk]

/-- Witness for C4 (amended) at a concrete leaf: the clause for
`{equals, k, "x"}` is the verbatim-key template with the escaped
value. -/
theorem C4_value_escaped_key_verbatim_witness :
    FilterT.awsFilterToWhere (.cond "equals" "k" (.scalar (.s "x"))) none =
      ("json_extract(metadata_json, '$." ++ "k" ++ "')") ++ " = " ++
        FilterT.formatSqlValue (.scalar (.s "x")) :=
  C4_value_escaped_key_verbatim.2.2.2.2 "k" (.scalar (.s "x")) (by decide)

/-- C8: invariants of the ID map across every sequence of builds
(`process_new_slices`) and tombstone operations (`delete_by_keys`)
starting from an absent idmap:
(1) ids are dense and monotonically non-decreasing in row order — the
    id column is exactly `0, 1, 2, …`;
(2) the `(id, key)` bindings already present are a stable prefix under
    any further sequence of operations — an id is never reused for, or
    rebound to, a different key;
(3) `delete_by_keys` only flips the `alive` flag: the `id`, `key`,
    `vec` and `meta` columns (and hence the row count) are untouched. -/
theorem C8_idmap_invariants (ops ops' : List Indexer.Op) (keys : List String) :
    (((Indexer.applyOps ops).getD []).map (·.id) =
        List.range ((Indexer.applyOps ops).getD []).length) ∧
    ((((Indexer.applyOps (ops ++ ops')).getD []).map Indexer.idKey).take
          ((Indexer.applyOps ops).getD []).length =
        ((Indexer.applyOps ops).getD []).map Indexer.idKey) ∧
    ((Indexer.deleteByKeys (Indexer.applyOps ops) keys).1.getD []).map
        Indexer.frozenCols =
      ((Indexer.applyOps ops).getD []).map Indexer.frozenCols := by
  refine ⟨Indexer.foldl_dense ops none (by simp), ?_, ?_⟩
  · rw [Indexer.applyOps, Indexer.applyOps, List.foldl_append]
    exact Indexer.foldl_idKey_take ops' (ops.foldl Indexer.applyOp none)
  · cases htbl : Indexer.applyOps ops with
    | none => simp [Indexer.deleteByKeys_none]
    | some t =>
      simp only [Option.getD_some]
      exact Indexer.deleteByKeys_map_of_alive_blind t keys
        Indexer.frozenCols (fun _ => rfl)

namespace LanceOps

/-- Metadata cell in a write batch: `none` is Python `None` (JSON
null); values reuse `FilterT.PyVal` (booleans, integers, strings —
floats are floating point and outside the embedding, so `float64`
columns never arise here). -/
abbrev MCell := Option FilterT.PyVal

/-- One vector of a PutVectors batch after the handler's extraction:
`{"key": ..., "vector": data.float32, "metadata": ...}`. -/
structure VecItem where
  key : String
  vector : List ℚ
  metadata : List (String × MCell)
  deriving Repr, DecidableEq

/-- Mirrors `infer_arrow_type` (`src/app/lance/schema.py:32`): `bool`
before `int` (Python `bool` is an `int`), everything else a string. -/
def inferArrowType : FilterT.PyVal → String
  | .b _ => "bool"
  | .i _ => "int64"
  | .s _ => "string"

/-- Inner loop of `create_filterable_types`: walk one item's metadata
pairs in order; a key not yet typed whose value is non-null is
appended with its inferred type. -/
def addTypes (types : List (String × String)) :
    List (String × MCell) → List (String × String)
  | [] => types
  | (_, none) :: rest => addTypes types rest
  | (k, some v) :: rest =>
      if (types.lookup k).isSome then addTypes types rest
      else addTypes (types ++ [(k, inferArrowType v)]) rest

/-- Outer loop of `create_filterable_types` over the batch items. -/
def createFilterableTypesAux (types : List (String × String)) :
    List VecItem → List (String × String)
  | [] => types
  | item :: rest => createFilterableTypesAux (addTypes types item.metadata) rest

/-- Mirrors `create_filterable_types` (`src/app/lance/schema.py:42`):
infer a pyarrow type for each filterable key from the first non-null
value in the batch. -/
def createFilterableTypes (vectors : List VecItem) : List (String × String) :=
  createFilterableTypesAux [] vectors

/-- Python truthiness of a scalar (`bool(v)`). -/
def pyBool : FilterT.PyVal → Bool
  | .b x => x
  | .i n => n ≠ 0
  | .s v => v ≠ ""

/-- Python `str(v)` of a scalar. -/
def pyStrOf : FilterT.PyVal → String
  | .b true => "True"
  | .b false => "False"
  | .i n => toString n
  | .s v => v

/-- Cast of a metadata value into its column's physical type
(`prepare_batch_data`'s `bool(v)` / `int(v)` / `str(v)` branches;
`int(v)` of a non-numeric string raises `ValueError` — numeric strings
are outside the embedding, see `FilterT.PyVal`). -/
def castCell (typ : String) (v : FilterT.PyVal) : Except String FilterT.PyVal :=
  if typ = "bool" then .ok (.b (pyBool v))
  else if typ = "int64" then
    match v with
    | .i n => .ok (.i n)
    | .b x => .ok (.i (if x then 1 else 0))
    | .s _ => .error "invalid literal for int()"
  else .ok (.s (pyStrOf v))

/-- One stored row of a Lance table: `key`, `vector`, the
`metadata_json` blob (the non-filterable remainder; `None` when that
remainder is empty — `json.dumps(nonfilterable) if nonfilterable else
None`), and one cell per typed filterable column. -/
structure TableRow where
  key : String
  vector : List ℚ
  metadataJson : Option (List (String × MCell))
  typed : List (String × MCell)
  deriving Repr, DecidableEq

/-- Typed cells of one item for the filterable columns, in column
order: `v = filterable.get(k)` is null when the key is absent from the
item's metadata or its value is null, else the value cast to the
column type. -/
def castCells (metadata : List (String × MCell)) :
    List (String × String) → Except String (List (String × MCell))
  | [] => .ok []
  | (k, typ) :: rest =>
      match (metadata.lookup k).join with
      | none =>
          match castCells metadata rest with
          | .error e => .error e
          | .ok cells => .ok ((k, none) :: cells)
      | some v =>
          match castCell typ v with
          | .error e => .error e
          | .ok c =>
              match castCells metadata rest with
              | .error e => .error e
              | .ok cells => .ok ((k, some c) :: cells)

/-- Mirrors `prepare_batch_data` (`src/app/lance/schema.py:52`): for
each item in order, raise `ValueError` when the vector length differs
from `dimension`; split metadata into typed cells (keys of
`filterable_types`) and the non-filterable JSON remainder (keys not in
`filterable_types`, kept verbatim, `None` when empty).  The error is
raised before any row reaches the table (`table.add` runs only on the
fully built batch). -/
def prepareBatchData (vectors : List VecItem) (dimension : Nat)
    (filterableTypes : List (String × String)) : Except String (List TableRow) :=
  match vectors with
  | [] => .ok []
  | item :: rest =>
      if item.vector.length ≠ dimension then
        .error "Vector dimension mismatch"
      else
        match castCells item.metadata filterableTypes with
        | .error e => .error e
        | .ok cells =>
            let nonfilterable :=
              item.metadata.filter fun kv => (filterableTypes.lookup kv.1).isNone
            let row : TableRow :=
              { key := item.key, vector := item.vector,
                metadataJson :=
                  if nonfilterable.isEmpty then none else some nonfilterable,
                typed := cells }
            match prepareBatchData rest dimension filterableTypes with
            | .error e => .error e
            | .ok rows => .ok (row :: rows)

/-- A Lance table: the dimension fixed at creation (`_index_config`
dimension; the `vector` column itself is a variable-length
`list<float32>`, so nothing enforces it on write), the typed
filterable columns added so far, and the stored rows. -/
structure Table where
  dimension : Nat
  schemaExtra : List (String × String)
  rows : List TableRow
  deriving Repr, DecidableEq

/-- Column names of the table's schema. -/
def schemaNames (t : Table) : List String :=
  ["key", "vector", "metadata_json"] ++ t.schemaExtra.map (·.1)

/-- Mirrors `create_table` (`src/app/lance/index_ops.py:12`): the
schema holds only `key`, `vector`, `metadata_json` (filterable keys
are added later); the `nonfilterable_keys` argument is accepted and
never used; the dummy row is inserted and deleted, leaving no rows. -/
def createTable (dimension : Nat) (nonfilterableKeys : List String) : Table :=
  { dimension := dimension, schemaExtra := [], rows := [] }

/-- Mirrors `upsert_vectors` (`src/app/lance/index_ops.py:31`): open
the table, creating it on failure with the dimension of the batch's
first vector (768 for an empty batch); take `dimension` from the first
vector likewise; infer filterable types from this batch and add the
missing ones as new nullable columns; then `prepare_batch_data` and
`table.add`.  Everything runs inside `try/except` — on any error the
function returns `False` (rows unchanged, though freshly added columns
persist); on success `True`. -/
def upsertVectors (tbl : Option Table) (vectors : List VecItem) : Table × Bool :=
  let dimension := match vectors.head? with
    | some v => v.vector.length
    | none => 768
  let table0 := match tbl with
    | some t => t
    | none => createTable dimension []
  let types := createFilterableTypes vectors
  let newFields := types.filter fun kt => kt.1 ∉ schemaNames table0
  let table1 := { table0 with schemaExtra := table0.schemaExtra ++ newFields }
  match prepareBatchData vectors dimension types with
  | .error _ => (table1, false)
  | .ok rows => ({ table1 with rows := table1.rows ++ rows }, true)

end LanceOps

namespace LanceOps

/-- Result of an HTTP handler: a payload or an error status code. -/
inductive ApiResult (α : Type) where
  | ok (value : α)
  | err (status : Nat)
  deriving Repr, DecidableEq

/-- Configured batch limit (`config.MAX_BATCH`, default 500). -/
def maxBatch : Nat := 500

/-- Mirrors `validate_batch_size` (`src/app/errors.py:126`): a
`ValidationException` when the batch exceeds `config.MAX_BATCH`.  This
helper is defined and unit-tested but never called on any PutVectors
request path. -/
def validateBatchSize (vectors : List VecItem) : Except String Unit :=
  if vectors.length > maxBatch then
    .error "Batch size exceeds limit"
  else .ok ()

/-- Mirrors the `put_vectors` handler (`src/app/api.py:375`): 404 when
the bucket is missing; otherwise `upsert_vectors` (whose returned
success flag is ignored) then `rebuild_index` (which swallows its own
errors and changes no rows), and an unconditional success response
`PutVectorsResponse(vectorCount=len(request.vectors),
vectorIds=[v.key ...])`.  No batch-size or dimension validation is
performed.  Returns the response and the resulting table state. -/
def putVectors (bucketExists : Bool) (tbl : Option Table)
    (vectors : List VecItem) : ApiResult (Nat × List String) × Option Table :=
  if bucketExists then
    let (t', _) := upsertVectors tbl vectors
    (.ok (vectors.length, vectors.map (·.key)), some t')
  else (.err 404, tbl)

theorem castCells_ok_of_empty_metadata (types : List (String × String)) :
    ∃ cells, castCells [] types = .ok cells := by
  induction types with
  | nil => exact ⟨[], rfl⟩
  | cons kt rest ih =>
    obtain ⟨cells, hc⟩ := ih
    exact ⟨(kt.1, none) :: cells, by simp [castCells, hc]⟩

theorem prepareBatchData_error_of_mismatch (vectors : List VecItem)
    (dimension : Nat) (types : List (String × String))
    (h : ∃ item ∈ vectors, item.vector.length ≠ dimension) :
    ∀ rows, prepareBatchData vectors dimension types ≠ .ok rows := by
  induction vectors with
  | nil => simp at h
  | cons item rest ih =>
    intro rows hok
    by_cases hd : item.vector.length = dimension
    · rcases h with ⟨w, hw, hlen⟩
      rcases List.mem_cons.mp hw with rfl | hw'
      · exact hlen hd
      · rw [prepareBatchData, if_neg (by rw [hd]; exact fun c => c rfl)] at hok
        rcases hcast : castCells item.metadata types with e | cells <;>
          rw [hcast] at hok
        · exact absurd hok (by simp)
        · rcases hrest : prepareBatchData rest dimension types with e | rows' <;>
            rw [hrest] at hok
          · exact absurd hok (by simp)
          · exact ih ⟨w, hw', hlen⟩ rows' hrest
    · rw [prepareBatchData, if_pos hd] at hok
      exact absurd hok (by simp)

end LanceOps

/-- C5 counterexample: a batch whose single vector has length 2 against
an index of dimension 3 is accepted — `upsert_vectors` derives the
expected dimension from the batch's own first vector, never from the
index — the row is written and the handler reports success, so neither
the Validation error nor the no-write half of the claim holds. -/
theorem C5_counterexample :
    LanceOps.putVectors true (some (LanceOps.createTable 3 []))
        [{ key := "k", vector := [1, 2], metadata := [] }] =
      (.ok (1, ["k"]),
        some { dimension := 3, schemaExtra := [],
               rows := [{ key := "k", vector := [1, 2], metadataJson := none,
                          typed := [] }] }) ∧
    (2 : Nat) ≠ 3 := by
  refine ⟨by decide, by decide⟩

/-- C5 (amended): the dimension check compares each vector against the
length of the batch's first vector, not the index dimension.  When
some vector in the batch differs from the first vector's length,
`prepare_batch_data` raises before `table.add`, so no row is written
(the freshly inferred columns may already have been added to the
schema); `upsert_vectors` swallows the error and returns `False`, and
the `put_vectors` handler still answers success with the full vector
count and key list.  A batch whose vectors all share the same wrong
length is written without any error. -/
theorem C5_mismatch_no_rows_but_http_ok (t : LanceOps.Table)
    (vectors : List LanceOps.VecItem) (v0 : LanceOps.VecItem)
    (rest : List LanceOps.VecItem) (hv : vectors = v0 :: rest)
    (hmis : ∃ item ∈ vectors, item.vector.length ≠ v0.vector.length) :
    (LanceOps.upsertVectors (some t) vectors).1.rows = t.rows ∧
    (LanceOps.upsertVectors (some t) vectors).2 = false ∧
    (LanceOps.putVectors true (some t) vectors).1 =
      .ok (vectors.length, vectors.map (·.key)) := by
  subst hv
  have herr := LanceOps.prepareBatchData_error_of_mismatch (v0 :: rest)
    v0.vector.length (LanceOps.createFilterableTypes (v0 :: rest)) hmis
  rcases hp : LanceOps.prepareBatchData (v0 :: rest) v0.vector.length
      (LanceOps.createFilterableTypes (v0 :: rest)) with e | rows
  · refine ⟨?_, ?_, ?_⟩
    · simp only [LanceOps.upsertVectors, List.head?_cons, hp]
    · simp only [LanceOps.upsertVectors, List.head?_cons, hp]
    · simp only [LanceOps.putVectors, if_pos, LanceOps.upsertVectors,
        List.head?_cons, hp, if_true]
  · exact absurd hp (herr rows)

/-- Witness for C5 (amended): a two-vector batch with lengths 3 and 1
writes nothing, upsert reports failure, yet the HTTP response claims
both vectors stored. -/
theorem C5_mismatch_no_rows_but_http_ok_witness :
    (LanceOps.upsertVectors (some (LanceOps.createTable 3 []))
        [{ key := "a", vector := [1, 2, 3], metadata := [] },
         { key := "b", vector := [1], metadata := [] }]).1.rows =
      (LanceOps.createTable 3 []).rows ∧
    (LanceOps.upsertVectors (some (LanceOps.createTable 3 []))
        [{ key := "a", vector := [1, 2, 3], metadata := [] },
         { key := "b", vector := [1], metadata := [] }]).2 = false ∧
    (LanceOps.putVectors true (some (LanceOps.createTable 3 []))
        [{ key := "a", vector := [1, 2, 3], metadata := [] },
         { key := "b", vector := [1], metadata := [] }]).1 =
      .ok (2, ["a", "b"]) :=
  C5_mismatch_no_rows_but_http_ok (LanceOps.createTable 3 [])
    _ { key := "a", vector := [1, 2, 3], metadata := [] }
    [{ key := "b", vector := [1], metadata := [] }] rfl
    ⟨{ key := "b", vector := [1], metadata := [] }, by decide, by decide⟩

namespace LanceOps

theorem createFilterableTypesAux_of_empty_meta (l : List VecItem)
    (h : ∀ item ∈ l, item.metadata = []) (types : List (String × String)) :
    createFilterableTypesAux types l = types := by
  induction l generalizing types with
  | nil => rfl
  | cons item rest ih =>
    rw [createFilterableTypesAux, h item (List.mem_cons_self item rest), addTypes]
    exact ih (fun i hi => h i (List.mem_cons_of_mem _ hi)) types

theorem prepareBatchData_ok_of_uniform (l : List VecItem) (d : Nat)
    (h : ∀ item ∈ l, item.vector.length = d ∧ item.metadata = []) :
    prepareBatchData l d [] =
      .ok (l.map fun item =>
        { key := item.key, vector := item.vector, metadataJson := none,
          typed := [] }) := by
  induction l with
  | nil => rfl
  | cons item rest ih =>
    obtain ⟨hd, hm⟩ := h item (List.mem_cons_self item rest)
    rw [prepareBatchData, if_neg (by rw [hd]; exact fun c => c rfl)]
    rw [show castCells item.metadata [] = .ok [] from rfl,
      ih (fun i hi => h i (List.mem_cons_of_mem _ hi))]
    simp [hm]

theorem lookup_isSome_append_left {β : Type} {l₁ l₂ : List (String × β)}
    {k : String} (h : (l₁.lookup k).isSome) :
    ((l₁ ++ l₂).lookup k).isSome := by
  rw [List.lookup_append]
  rcases hl : l₁.lookup k with - | b
  · rw [hl] at h; simp at h
  · rfl

theorem lookup_isSome_append_self {β : Type} (l : List (String × β))
    (k : String) (b : β) : ((l ++ [(k, b)]).lookup k).isSome := by
  rw [List.lookup_append]
  rcases hl : l.lookup k with - | c
  · simp [List.lookup]
  · rfl

theorem addTypes_isSome_mono (md : List (String × MCell))
    (types : List (String × String)) (k : String)
    (h : (types.lookup k).isSome) : ((addTypes types md).lookup k).isSome := by
  induction md generalizing types with
  | nil => exact h
  | cons kv rest ih =>
    rcases kv with ⟨k', c⟩
    cases c with
    | none => rw [addTypes]; exact ih types h
    | some v =>
      rw [addTypes]
      by_cases hk : (types.lookup k').isSome
      · rw [if_pos hk]; exact ih types h
      · rw [if_neg hk]
        exact ih _ (lookup_isSome_append_left h)

theorem addTypes_isSome_of_mem (md : List (String × MCell))
    (types : List (String × String)) (k : String) (v : FilterT.PyVal)
    (h : (k, some v) ∈ md) : ((addTypes types md).lookup k).isSome := by
  induction md generalizing types with
  | nil => simp at h
  | cons kv rest ih =>
    rcases List.mem_cons.mp h with rfl | h'
    · rw [addTypes]
      by_cases hk : (types.lookup k).isSome
      · rw [if_pos hk]; exact addTypes_isSome_mono rest types k hk
      · rw [if_neg hk]
        exact addTypes_isSome_mono rest _ k (lookup_isSome_append_self ..)
    · rcases kv with ⟨k', c⟩
      cases c with
      | none => rw [addTypes]; exact ih types h'
      | some w =>
        rw [addTypes]
        by_cases hk : (types.lookup k').isSome
        · rw [if_pos hk]; exact ih types h'
        · rw [if_neg hk]; exact ih _ h'

theorem createFilterableTypesAux_isSome_mono (l : List VecItem)
    (types : List (String × String)) (k : String)
    (h : (types.lookup k).isSome) :
    ((createFilterableTypesAux types l).lookup k).isSome := by
  induction l generalizing types with
  | nil => exact h
  | cons item rest ih =>
    rw [createFilterableTypesAux]
    exact ih _ (addTypes_isSome_mono item.metadata types k h)

theorem createFilterableTypesAux_isSome_of_mem (l : List VecItem)
    (types : List (String × String)) (item : VecItem) (k : String)
    (v : FilterT.PyVal) (hitem : item ∈ l)
    (hkv : (k, some v) ∈ item.metadata) :
    ((createFilterableTypesAux types l).lookup k).isSome := by
  induction l generalizing types with
  | nil => simp at hitem
  | cons it rest ih =>
    rw [createFilterableTypesAux]
    rcases List.mem_cons.mp hitem with rfl | h'
    · exact createFilterableTypesAux_isSome_mono rest _ k
        (addTypes_isSome_of_mem item.metadata types k v hkv)
    · exact ih _ h'

theorem createFilterableTypes_isSome (vectors : List VecItem)
    (item : VecItem) (k : String) (v : FilterT.PyVal)
    (hitem : item ∈ vectors) (hkv : (k, some v) ∈ item.metadata) :
    ((createFilterableTypes vectors).lookup k).isSome :=
  createFilterableTypesAux_isSome_of_mem vectors [] item k v hitem hkv

theorem mem_of_lookup_isSome {β : Type} {l : List (String × β)} {k : String}
    (h : (l.lookup k).isSome) : ∃ b, (k, b) ∈ l := by
  induction l with
  | nil => simp [List.lookup] at h
  | cons kv rest ih =>
    rcases kv with ⟨k', b⟩
    cases hk : k == k' with
    | false =>
      simp only [List.lookup_cons, hk] at h
      obtain ⟨c, hc⟩ := ih h
      exact ⟨c, List.mem_cons_of_mem _ hc⟩
    | true =>
      have hkk : k = k' := by simpa using hk
      exact ⟨b, hkk ▸ List.mem_cons_self (k, b) rest⟩

theorem upsertVectors_schemaExtra (t : Table) (vectors : List VecItem) :
    (upsertVectors (some t) vectors).1.schemaExtra =
      t.schemaExtra ++ (createFilterableTypes vectors).filter
        (fun kt => kt.1 ∉ schemaNames t) := by
  simp only [upsertVectors]
  split <;> rfl

end LanceOps

/-- C6: evaluation of the code at the failing input of scenario S3.  A
PutVectors batch of `n > 500` identical vectors sails through: no
request path calls `validate_batch_size` (which would reject it — its
own check is also stated here), the handler returns success with
`vectorCount = n`, and all `n` rows are written, so the stored count
does not remain at its prior value (0). -/
theorem C6_oversized_batch_accepted (n : Nat) (h : n > 500) :
    LanceOps.validateBatchSize
        (List.replicate n { key := "k", vector := [1], metadata := [] }) =
      .error "Batch size exceeds limit" ∧
    (LanceOps.putVectors true (some (LanceOps.createTable 1 []))
        (List.replicate n { key := "k", vector := [1], metadata := [] })).1 =
      .ok (n, List.replicate n "k") ∧
    ((LanceOps.putVectors true (some (LanceOps.createTable 1 []))
        (List.replicate n { key := "k", vector := [1], metadata := [] })).2.map
      fun t => t.rows.length) = some n := by
  have hmem : ∀ item ∈ List.replicate n
      ({ key := "k", vector := [1], metadata := [] } : LanceOps.VecItem),
      item.vector.length = 1 ∧ item.metadata = [] := by
    intro item hi
    rw [List.eq_of_mem_replicate hi]
    exact ⟨rfl, rfl⟩
  have htypes : LanceOps.createFilterableTypes
      (List.replicate n { key := "k", vector := [1], metadata := [] }) = [] :=
    LanceOps.createFilterableTypesAux_of_empty_meta _
      (fun i hi => (hmem i hi).2) []
  have hprep := LanceOps.prepareBatchData_ok_of_uniform
    (List.replicate n { key := "k", vector := [1], metadata := [] }) 1 hmem
  have hdim : (List.replicate n
      ({ key := "k", vector := [1], metadata := [] } : LanceOps.VecItem)).head? =
      some { key := "k", vector := [1], metadata := [] } := by
    rw [List.head?_replicate, if_neg (by omega)]
  refine ⟨?_, ?_, ?_⟩
  · rw [LanceOps.validateBatchSize,
      if_pos (by rw [List.length_replicate]; exact h)]
  · simp only [LanceOps.putVectors, if_true, LanceOps.upsertVectors, hdim,
      htypes, hprep, List.map_replicate, List.length_replicate]
  · simp only [LanceOps.putVectors, if_true, LanceOps.upsertVectors, hdim,
      htypes, List.length_singleton, hprep, Option.map_some, List.nil_append,
      List.length_map, List.length_replicate, List.filter_nil]
    simp [LanceOps.createTable]

/-- C7 counterexample: an index created with `secret` declared
non-filterable still promotes `secret` to a typed string column on the
first write batch carrying it, and the value is stored in the typed
column while the JSON blob stays empty — `create_table` ignores its
`nonfilterable_keys` argument and `upsert_vectors` infers filterable
types from the batch alone. -/
theorem C7_counterexample :
    "secret" ∈ LanceOps.schemaNames
      (LanceOps.upsertVectors (some (LanceOps.createTable 1 ["secret"]))
        [{ key := "k", vector := [1],
           metadata := [("secret", some (.s "x"))] }]).1 ∧
    (LanceOps.upsertVectors (some (LanceOps.createTable 1 ["secret"]))
        [{ key := "k", vector := [1],
           metadata := [("secret", some (.s "x"))] }]).1.rows =
      [{ key := "k", vector := [1], metadataJson := none,
         typed := [("secret", some (.s "x"))] }] ∧
    "secret" ∈ ["secret"] := by
  refine ⟨by decide, by decide, by decide⟩

/-- C7 (amended): every metadata key carrying a non-null value anywhere
in a write batch is promoted to a typed column of the table by
`upsert_vectors`, whatever set of non-filterable keys the index was
created with — the declaration is dropped by `create_table` and never
consulted again. -/
theorem C7_every_key_promoted (t : LanceOps.Table)
    (vectors : List LanceOps.VecItem) (item : LanceOps.VecItem)
    (k : String) (v : FilterT.PyVal) (hitem : item ∈ vectors)
    (hkv : (k, some v) ∈ item.metadata) :
    k ∈ LanceOps.schemaNames (LanceOps.upsertVectors (some t) vectors).1 := by
  have hsome := LanceOps.createFilterableTypes_isSome vectors item k v hitem hkv
  obtain ⟨ty, hty⟩ := LanceOps.mem_of_lookup_isSome hsome
  have hschema : LanceOps.schemaNames (LanceOps.upsertVectors (some t) vectors).1 =
      ["key", "vector", "metadata_json"] ++
        (t.schemaExtra ++ (LanceOps.createFilterableTypes vectors).filter
          (fun kt => kt.1 ∉ LanceOps.schemaNames t)).map (·.1) := by
    rw [LanceOps.schemaNames, LanceOps.upsertVectors_schemaExtra]
  rw [hschema]
  by_cases hk : k ∈ LanceOps.schemaNames t
  · rw [LanceOps.schemaNames] at hk
    rcases List.mem_append.mp hk with hbase | hextra
    · exact List.mem_append_left _ hbase
    · refine List.mem_append_right _ ?_
      rw [List.map_append]
      exact List.mem_append_left _ hextra
  · refine List.mem_append_right _ ?_
    rw [List.map_append]
    refine List.mem_append_right _ ?_
    refine List.mem_map.mpr ⟨(k, ty), ?_, rfl⟩
    exact List.mem_filter.mpr ⟨hty, by simpa using hk⟩

/-- Witness for C7 (amended): the concrete `secret` batch again,
through the general theorem. -/
theorem C7_every_key_promoted_witness :
    "secret" ∈ LanceOps.schemaNames
      (LanceOps.upsertVectors (some (LanceOps.createTable 1 ["secret"]))
        [{ key := "k", vector := [1],
           metadata := [("secret", some (.s "x"))] }]).1 :=
  C7_every_key_promoted (LanceOps.createTable 1 ["secret"]) _
    { key := "k", vector := [1], metadata := [("secret", some (.s "x"))] }
    "secret" (.s "x") (by decide) (by decide)

namespace LanceOps

/-- An output vector of the read paths (`{"key": ..., "data":
{"float32": ...}, "metadata": ...}`). -/
structure OutVec where
  key : String
  data : Option (List ℚ)
  metadata : Option (List (String × MCell))
  deriving Repr, DecidableEq

/-- Conversion of a stored row to the API shape: vector data when
requested.  The metadata branch reads `row["nonfilter"]`, a column
`prepare_batch_data` never writes, so on every table this repository
writes the guard `"nonfilter" in row and row["nonfilter"]` is false
and no metadata is returned regardless of `return_metadata`. -/
def rowOut (row : TableRow) (returnData : Bool) : OutVec :=
  { key := row.key,
    data := if returnData then some row.vector else none,
    metadata := none }

/-- Mirrors `get_vectors` (`src/app/lance/index_ops.py:391`): open the
table and select the rows whose key is among the requested ones
(`key IN ('…')`); any exception — object store unreachable, corrupt
table — is caught and an EMPTY LIST is returned
(`except Exception: … return []`). -/
def getVectors (tbl : Except String Table) (keys : List String)
    (returnData returnMetadata : Bool) : List OutVec :=
  match tbl with
  | .error _ => []
  | .ok t => (t.rows.filter fun row => row.key ∈ keys).map (rowOut · returnData)

/-- Mirrors `_manual_search_vectors` (`src/app/lance/index_ops.py:172`):
open the table and run the brute-force scan (abstracted as `compute`,
the numpy cosine ranking); any exception is caught and an empty list
returned. -/
def manualSearchVectors (tbl : Except String Table)
    (compute : Table → List OutVec) : List OutVec :=
  match tbl with
  | .error _ => []
  | .ok t => compute t

/-- Mirrors `search_vectors` (`src/app/lance/index_ops.py:74`),
exception structure: the Lance-native search (abstracted as `lance`)
is attempted; if it or the table open raises, the function falls back
to `_manual_search_vectors`; a failure there yields `[]`.  No failure
ever escapes as an error. -/
def searchVectors (tbl : Except String Table)
    (lance : Table → Except String (List OutVec))
    (compute : Table → List OutVec) : List OutVec :=
  match tbl with
  | .error _ => manualSearchVectors tbl compute
  | .ok t =>
      match lance t with
      | .ok out => out
      | .error _ => manualSearchVectors (.ok t) compute

/-- Mirrors `validate_vector_keys` (`src/app/errors.py:144`). -/
def validateVectorKeys (keys : List String) : Except String Unit :=
  if keys = [] then .error "Vector keys cannot be empty"
  else if keys.length > 100 then .error "Cannot request more than 100 keys"
  else if keys.any (fun k => k.length > 512) then .error "Vector key exceeds 512"
  else .ok ()

/-- Mirrors the `get_vectors` handler (`src/app/api.py:484`): key
validation (400), bucket and index existence (404), then the Lance
lookup, whose result — empty on any dependency failure — is returned
with HTTP success. -/
def apiGetVectors (bucketExists indexExists : Bool)
    (tbl : Except String Table) (keys : List String)
    (returnData returnMetadata : Bool) : ApiResult (List OutVec) :=
  match validateVectorKeys keys with
  | .error _ => .err 400
  | .ok _ =>
      if bucketExists then
        if indexExists then .ok (getVectors tbl keys returnData returnMetadata)
        else .err 404
      else .err 404

/-- Mirrors the `query_vectors` handler (`src/app/api.py:425`): topK
validation (1..MAX_TOPK=30, else 400), bucket and index existence
(404), then `search_vectors`, whose result — empty on any dependency
failure — is returned with HTTP success. -/
def apiQueryVectors (bucketExists indexExists : Bool)
    (tbl : Except String Table)
    (lance : Table → Except String (List OutVec))
    (compute : Table → List OutVec) (topK : Nat) : ApiResult (List OutVec) :=
  if 1 ≤ topK ∧ topK ≤ 30 then
    if bucketExists then
      if indexExists then .ok (searchVectors tbl lance compute)
      else .err 404
    else .err 404
  else .err 400

/-- Mirrors `delete_vectors` (`src/app/lance/index_ops.py:450`): open
the table, delete the rows matching `key IN (…)`, and return
`len(vector_keys)` — whether or not the keys exist; any exception
(open or delete, the latter abstracted by `deleteRaises`) is caught
and `0` returned. -/
def deleteVectors (tbl : Except String Table) (deleteRaises : Bool)
    (vectorKeys : List String) : Except String Table × Nat :=
  match tbl with
  | .error e => (.error e, 0)
  | .ok t =>
      if deleteRaises then (.ok t, 0)
      else (.ok { t with rows := t.rows.filter fun r => r.key ∉ vectorKeys },
        vectorKeys.length)

/-- Mirrors `models.DeleteVectorsRequest` (`src/app/models.py:90`): the
pydantic model's key-list field is named `keys`; no field named
`vectorKeys` exists on the model. -/
structure DeleteVectorsRequest where
  keys : List String

/-- The attribute access `request.vectorKeys` exactly as the handler
performs it (`src/app/api.py:601,605`): `DeleteVectorsRequest` defines
no attribute `vectorKeys`, so the access raises `AttributeError` on
every request; no branch of the definition can return `.ok`. -/
def requestVectorKeys (_ : DeleteVectorsRequest) :
    Except String (List String) :=
  .error "AttributeError: DeleteVectorsRequest object has no attribute vectorKeys"

/-- Mirrors the `delete_vectors` handler (`src/app/api.py:579`): 404
when the bucket is missing; otherwise the handler evaluates
`request.vectorKeys` — which raises, since the model field is `keys` —
and the catch-all `except Exception` turns that into HTTP 500. Had the
access succeeded, the response would have been HTTP success with
`deletedVectorCount = deleted_count` and `deletedVectorKeys =
request.vectorKeys[:deleted_count]`. -/
def apiDeleteVectors (bucketExists : Bool) (tbl : Except String Table)
    (deleteRaises : Bool) (request : DeleteVectorsRequest) :
    ApiResult (Nat × List String) :=
  if bucketExists then
    match requestVectorKeys request with
    | .error _ => .err 500
    | .ok vectorKeys =>
        .ok ((deleteVectors tbl deleteRaises vectorKeys).2,
          vectorKeys.take (deleteVectors tbl deleteRaises vectorKeys).2)
  else .err 404

end LanceOps

/-- C9 counterexample: with the object store unreachable (opening the
Lance table raises), both a get-vectors and a query complete with HTTP
success and an empty vector list — not a 502/503 dependency error as
the claim requires. -/
theorem C9_counterexample :
    LanceOps.apiGetVectors true true (.error "connection refused") ["k"]
        true true = .ok [] ∧
    LanceOps.apiQueryVectors true true (.error "connection refused")
        (fun _ => .error "unreachable") (fun _ => []) 10 = .ok [] ∧
    (LanceOps.ApiResult.ok ([] : List LanceOps.OutVec) ≠ .err 502) ∧
    (LanceOps.ApiResult.ok ([] : List LanceOps.OutVec) ≠ .err 503) := by
  refine ⟨rfl, rfl, by decide, by decide⟩

/-- C9 (amended): dependency failures during query and get-vectors
are swallowed, not surfaced: when the store is unreachable,
`search_vectors` (falling through `_manual_search_vectors`) and
`get_vectors` return the empty list, and the HTTP handlers answer 200
with an empty result; when only the Lance-native search fails, the
query silently falls back to the brute-force scan instead of
reporting a dependency error. -/
theorem C9_dependency_failures_swallowed (e le : String) (keys : List String)
    (rd rm : Bool) (lance : LanceOps.Table → Except String (List LanceOps.OutVec))
    (compute : LanceOps.Table → List LanceOps.OutVec) (t : LanceOps.Table) :
    LanceOps.searchVectors (.error e) lance compute = [] ∧
    LanceOps.searchVectors (.ok t) (fun _ => .error le) compute = compute t ∧
    LanceOps.getVectors (.error e) keys rd rm = [] ∧
    LanceOps.apiQueryVectors true true (.error e) lance compute 10 = .ok [] ∧
    LanceOps.apiGetVectors true true (.error e) ["k"] rd rm = .ok [] := by
  exact ⟨rfl, rfl, rfl, rfl, rfl⟩

/-- C10 counterexample: a well-formed DeleteVectors request for one
key against an existing bucket and a healthy table does not receive
the success response the claim describes (count 1, the key echoed): it
receives HTTP 500, because the handler reads `request.vectorKeys`
while the request model defines the field `keys`, so the attribute
access raises on every request. -/
theorem C10_counterexample :
    LanceOps.apiDeleteVectors true
        (.ok { dimension := 3, schemaExtra := [], rows := [] }) false
        { keys := ["k"] } = .err 500 ∧
    (LanceOps.ApiResult.err 500 ≠
      LanceOps.ApiResult.ok ((1 : Nat), ["k"])) := by
  exact ⟨rfl, by decide⟩

/-- C10 (amended): every DeleteVectors request through the delete
route fails with HTTP 500 — the handler reads `request.vectorKeys`
but `DeleteVectorsRequest` defines the field `keys`, so the attribute
access raises `AttributeError` after the bucket check and the
catch-all converts it to a 500; the claimed success response never
occurs (and would anyway serialize without the count/keys fields,
since `DeleteVectorsResponse` declares none). The underlying
`index_ops.delete_vectors`, had it been reached, returns
`len(vector_keys)` whether or not the keys exist, and 0 when the table
open or the delete raises. -/
theorem C10_delete_route_always_500 (request : LanceOps.DeleteVectorsRequest)
    (tbl : Except String LanceOps.Table) (deleteRaises : Bool)
    (t : LanceOps.Table) (keys : List String) :
    LanceOps.apiDeleteVectors true tbl deleteRaises request = .err 500 ∧
    LanceOps.apiDeleteVectors false tbl deleteRaises request = .err 404 ∧
    (LanceOps.deleteVectors (.ok t) false keys).2 = keys.length ∧
    (LanceOps.deleteVectors (.ok t) true keys).2 = 0 ∧
    (LanceOps.deleteVectors (.error "unreachable") false keys).2 = 0 := by
  exact ⟨rfl, rfl, rfl, rfl, rfl⟩

/-- Witness for C6 at the scenario S3 input: a 600-vector batch is
rejected by the (uncalled) validator yet stored in full with a success
response. -/
theorem C6_oversized_batch_accepted_witness :
    LanceOps.validateBatchSize
        (List.replicate 600 { key := "k", vector := [1], metadata := [] }) =
      .error "Batch size exceeds limit" ∧
    (LanceOps.putVectors true (some (LanceOps.createTable 1 []))
        (List.replicate 600 { key := "k", vector := [1], metadata := [] })).1 =
      .ok (600, List.replicate 600 "k") ∧
    ((LanceOps.putVectors true (some (LanceOps.createTable 1 []))
        (List.replicate 600 { key := "k", vector := [1], metadata := [] })).2.map
      fun t => t.rows.length) = some 600 :=
  C6_oversized_batch_accepted 600 (by decide)

namespace Backends

/-- The float literal `1e-9` added to every norm by `_normalize_rows`
and `HNSWFlat._dist` (modelled as the exact real 10⁻⁹). -/
noncomputable def eps : ℝ := 1 / 1000000000

/-- Dot product of two rows (`np.dot` / `A @ B.T` entries). -/
noncomputable def dot (a b : List ℝ) : ℝ := (List.zipWith (· * ·) a b).sum

/-- Euclidean norm of a row (`np.linalg.norm`). -/
noncomputable def pyNorm (x : List ℝ) : ℝ :=
  Real.sqrt ((x.map fun v => v * v).sum)

/-- Normalization of one row as both backends perform it:
`X / (norm + 1e-9)` (`faiss_backends._normalize_rows`,
`HNSWFlat._dist`). -/
noncomputable def normalizeRow (x : List ℝ) : List ℝ :=
  x.map fun v => v / (pyNorm x + eps)

/-- Mirrors `HNSWFlat._dist` (`src/app/index/hnsw_backend.py:22`) on a
single pair: cosine is `1 - ⟨a', b'⟩` over the ε-normalized rows;
euclidean is the expanded squared distance `a² + b² - 2ab`. -/
noncomputable def hnswDist (metric : String) (a b : List ℝ) : ℝ :=
  if metric = "cosine" then 1 - dot (normalizeRow a) (normalizeRow b)
  else (a.map fun v => v * v).sum + (b.map fun v => v * v).sum - 2 * dot a b

/-- Mirrors `HNSWFlat.search` (`src/app/index/hnsw_backend.py:33`):
distances of the query to every stored row, the `topk` smallest first
(`argpartition` + `argsort` over `D`), returned as `(id, distance)`
pairs with the distances ascending. -/
noncomputable def hnswFlatSearch (metric : String) (ids : List Int)
    (X : List (List ℝ)) (q : List ℝ) (topk : Nat) : List (Int × ℝ) :=
  (((ids.zip X).map fun p => (p.1, hnswDist metric q p.2)).insertionSort
    fun x y => x.2 ≤ y.2).take topk

/-- Squared L2 distance, the `D` faiss returns under `METRIC_L2`. -/
noncomputable def l2sq (a b : List ℝ) : ℝ :=
  (List.zipWith (fun x y => (x - y) * (x - y)) a b).sum

/-- Semantics of `faiss.IndexIVFPQ.search` with exact distances (the
PQ/nprobe approximation only perturbs the scores, not the direction of
the scale): under `METRIC_INNER_PRODUCT` the `topk` entries of largest
inner product come first and `D` holds those inner products (larger =
more similar); under `METRIC_L2` the smallest squared distances come
first. -/
noncomputable def faissSearch (innerProduct : Bool)
    (entries : List (Int × List ℝ)) (q : List ℝ) (topk : Nat) :
    List (Int × ℝ) :=
  if innerProduct then
    (((entries.map fun p => (p.1, dot q p.2)).insertionSort
      fun x y => y.2 ≤ x.2).take topk)
  else
    (((entries.map fun p => (p.1, l2sq q p.2)).insertionSort
      fun x y => x.2 ≤ y.2).take topk)

/-- Stored entries of `IVFPQBackend` after `build(X, ids)`
(`src/app/index/faiss_backends.py:69`): for the cosine metric the rows
are ε-normalized before being handed to faiss; for euclidean they are
stored as-is. -/
noncomputable def ivfpqEntries (metric : String) (X : List (List ℝ))
    (ids : List Int) : List (Int × List ℝ) :=
  ids.zip (if metric = "cosine" then X.map normalizeRow else X)

/-- Mirrors `IVFPQBackend.search` (`src/app/index/faiss_backends.py:84`):
for cosine the query is ε-normalized and faiss runs under
`METRIC_INNER_PRODUCT` (the constructor picks the metric type);
otherwise `METRIC_L2`.  The returned `D` column is faiss's native
score: inner products for cosine, squared distances for euclidean. -/
noncomputable def ivfpqSearch (metric : String)
    (entries : List (Int × List ℝ)) (q : List ℝ) (topk : Nat) :
    List (Int × ℝ) :=
  faissSearch (metric = "cosine") entries
    (if metric = "cosine" then normalizeRow q else q) topk

theorem sorted_take_insertionSort (r : Int × ℝ → Int × ℝ → Prop)
    [DecidableRel r] [IsTotal (Int × ℝ) r] [IsTrans (Int × ℝ) r]
    (l : List (Int × ℝ)) (k : Nat) :
    List.Sorted r ((l.insertionSort r).take k) :=
  List.Pairwise.sublist (List.take_sublist k _)
    (List.sorted_insertionSort r l)

end Backends

/-- C3 counterexample: the IVF-PQ backend under the cosine metric does
not return smaller-is-better distances.  For stored entries `[1,0]`
(id 0) and `[0,1]` (id 1) and query `[1,0]`, the search ranks id 0
(the vector identical to the query) first, and its returned distance
value is strictly GREATER than the other candidate's — faiss under
`METRIC_INNER_PRODUCT` returns inner-product similarities, so the most
similar candidate carries the maximal, not the minimal, value. -/
theorem C3_counterexample :
    ((Backends.ivfpqSearch "cosine" [(0, [1, 0]), (1, [0, 1])] [1, 0] 2).map
      Prod.fst = [0, 1]) ∧
    ((Backends.ivfpqSearch "cosine" [(0, [1, 0]), (1, [0, 1])] [1, 0] 2).map
      Prod.snd).getD 0 0 >
      ((Backends.ivfpqSearch "cosine" [(0, [1, 0]), (1, [0, 1])] [1, 0] 2).map
        Prod.snd).getD 1 0 := by
  have he : (0 : ℝ) < Backends.eps := by rw [Backends.eps]; norm_num
  have hn : Backends.pyNorm [(1 : ℝ), 0] = 1 := by
    unfold Backends.pyNorm
    simp
  have hq : Backends.normalizeRow [(1 : ℝ), 0] =
      [1 / (1 + Backends.eps), 0 / (1 + Backends.eps)] := by
    rw [Backends.normalizeRow, hn]
    rfl
  have hs0 : Backends.dot [1 / (1 + Backends.eps), 0 / (1 + Backends.eps)]
      [(1 : ℝ), 0] = 1 / (1 + Backends.eps) := by
    unfold Backends.dot
    simp
  have hs1 : Backends.dot [1 / (1 + Backends.eps), 0 / (1 + Backends.eps)]
      [(0 : ℝ), 1] = 0 := by
    unfold Backends.dot
    simp
  have hlt : Backends.dot [1 / (1 + Backends.eps), 0 / (1 + Backends.eps)]
      [(0 : ℝ), 1] < Backends.dot [1 / (1 + Backends.eps), 0 / (1 + Backends.eps)]
      [(1 : ℝ), 0] := by
    rw [hs0, hs1]
    positivity
  have hres : Backends.ivfpqSearch "cosine" [(0, [1, 0]), (1, [0, 1])] [1, 0] 2 =
      [(0, Backends.dot [1 / (1 + Backends.eps), 0 / (1 + Backends.eps)]
          [(1 : ℝ), 0]),
       (1, Backends.dot [1 / (1 + Backends.eps), 0 / (1 + Backends.eps)]
          [(0 : ℝ), 1])] := by
    rw [Backends.ivfpqSearch, if_pos rfl, hq, Backends.faissSearch,
      if_pos (by rfl)]
    rw [show List.map
        (fun p => (p.1, Backends.dot
          [1 / (1 + Backends.eps), 0 / (1 + Backends.eps)] p.2))
        [((0 : Int), [(1 : ℝ), 0]), (1, [0, 1])] =
      [((0 : Int), Backends.dot
          [1 / (1 + Backends.eps), 0 / (1 + Backends.eps)] [(1 : ℝ), 0]),
       (1, Backends.dot
          [1 / (1 + Backends.eps), 0 / (1 + Backends.eps)] [(0 : ℝ), 1])]
      from rfl]
    rw [List.insertionSort, List.insertionSort, List.insertionSort,
      List.orderedInsert, List.orderedInsert, if_pos (le_of_lt hlt)]
    rfl
  rw [hres]
  exact ⟨rfl, by simpa using hlt⟩

/-- C3 (amended): the graph backend (`HNSWFlat`) returns distances
smaller-is-better under both metrics (ascending `1 - cos` for cosine,
ascending expanded squared L2 for euclidean), and IVF-PQ under
euclidean likewise returns ascending squared distances; but IVF-PQ
under cosine returns faiss inner-product similarities sorted
DESCENDING — larger is more similar.  Cosine is implemented as inner
product over ε-normalized vectors with the normalization performed
inside the backend: `build` normalizes the stored rows and `search`
normalizes the query. -/
theorem C3_distance_scale (metric : String) (ids : List Int)
    (X : List (List ℝ)) (q : List ℝ) (k : Nat)
    (entries : List (Int × List ℝ)) :
    List.Sorted (fun x y : Int × ℝ => x.2 ≤ y.2)
      (Backends.hnswFlatSearch metric ids X q k) ∧
    List.Sorted (fun x y : Int × ℝ => x.2 ≤ y.2)
      (Backends.ivfpqSearch "euclidean" entries q k) ∧
    List.Sorted (fun x y : Int × ℝ => y.2 ≤ x.2)
      (Backends.ivfpqSearch "cosine" entries q k) ∧
    Backends.ivfpqSearch "cosine" entries q k =
      Backends.faissSearch true entries (Backends.normalizeRow q) k ∧
    Backends.ivfpqEntries "cosine" X ids = ids.zip (X.map Backends.normalizeRow) := by
  haveI hta : IsTotal (Int × ℝ) (fun x y : Int × ℝ => x.2 ≤ y.2) :=
    ⟨fun a b => le_total a.2 b.2⟩
  haveI htra : IsTrans (Int × ℝ) (fun x y : Int × ℝ => x.2 ≤ y.2) :=
    ⟨fun _ _ _ hab hbc => le_trans hab hbc⟩
  haveI htd : IsTotal (Int × ℝ) (fun x y : Int × ℝ => y.2 ≤ x.2) :=
    ⟨fun a b => le_total b.2 a.2⟩
  haveI htrd : IsTrans (Int × ℝ) (fun x y : Int × ℝ => y.2 ≤ x.2) :=
    ⟨fun _ _ _ hab hbc => le_trans hbc hab⟩
  refine ⟨?_, ?_, ?_, ?_, rfl⟩
  · exact Backends.sorted_take_insertionSort _ _ k
  · rw [Backends.ivfpqSearch, if_neg (by decide), Backends.faissSearch,
      if_neg (by decide)]
    exact Backends.sorted_take_insertionSort _ _ k
  · rw [Backends.ivfpqSearch, if_pos rfl, Backends.faissSearch,
      if_pos (by rfl)]
    exact Backends.sorted_take_insertionSort _ _ k
  · rw [Backends.ivfpqSearch, if_pos rfl]
    rfl
